import Mathlib

/-!
Verification development for the `un-sequence-expression`-style control-flow
reconstruction transformation: it unwraps nested ternary expressions and
logical expressions into if-else statements, early-return sequences, or
switch statements.

The definitions below are a shallow embedding of the TypeScript source:
the expression and statement node model follows the jscodeshift/ast-types
node kinds that the transformation inspects and builds, and each function
is translated clause by clause from the source file.
-/

namespace Wakaru

/-- Literal values carried by a `Literal` node (`j.Literal`). -/
inductive LitVal where
  | num (n : Int)
  | str (s : String)
  | bool (b : Bool)
deriving DecidableEq, Repr

/-- Logical operators of a `LogicalExpression`. The ast-types node model
restricts the operator of a `LogicalExpression` to exactly these three. -/
inductive LogicalOp where
  | and
  | or
  | nullish
deriving DecidableEq, Repr

mutual
/-- The fragment of the `ExpressionKind` node model that the transformation
distinguishes: `ConditionalExpression`, `LogicalExpression`,
`BinaryExpression` (operator kept as its source string, e.g. "==", "===",
"!="), `UnaryExpression` (e.g. the synthesized "!"), `Identifier`,
`Literal` and `CallExpression`. Every other node kind is treated atomically
by the source, so these constructors cover its whole case analysis. -/
inductive Expr where
  | conditional (test consequent alternate : Expr)
  | logical (operator : LogicalOp) (left right : Expr)
  | binary (operator : String) (left right : Expr)
  | unary (operator : String) (argument : Expr)
  | ident (name : String)
  | lit (value : LitVal)
  | call (callee : Expr) (args : ExprList)
/-- Argument list of a `CallExpression`. -/
inductive ExprList where
  | nil
  | cons (head : Expr) (tail : ExprList)
end

deriving instance DecidableEq for Expr
deriving instance DecidableEq for ExprList

/-- The fragment of the `StatementKind` node model that the transformation
produces: `ExpressionStatement`, `IfStatement` (consequent statement plus
optional alternate), `BlockStatement`, `ReturnStatement`,
`SwitchStatement` (with its list of cases) and `BreakStatement`. -/
inductive Stmt where
  | expressionStatement (expression : Expr)
  | ifStatement (test : Expr) (consequent : Stmt) (alternate : Option Stmt)
  | blockStatement (body : List Stmt)
  | returnStatement (argument : Expr)
  | switchStatement (discriminant : Expr) (cases : List (Option Expr × List Stmt))
  | breakStatement

/-- A switch case: `j.switchCase(test, body)`; the `none` test is the
`default` case. The body is a statement list. -/
abbrev SwitchCase := Option Expr × List Stmt

/-- `interface DecisionTree { condition; trueBranch; falseBranch }` with
nullable branches, exactly as in the source. -/
inductive DecisionTree where
  | node (condition : Expr) (trueBranch falseBranch : Option DecisionTree)

/-- Field accessor `tree.condition`. -/
def DecisionTree.condition : DecisionTree → Expr
  | .node c _ _ => c

/-- Field accessor `tree.trueBranch`. -/
def DecisionTree.trueBranch : DecisionTree → Option DecisionTree
  | .node _ t _ => t

/-- Field accessor `tree.falseBranch`. -/
def DecisionTree.falseBranch : DecisionTree → Option DecisionTree
  | .node _ _ f => f

/-- `j.IfStatement.check` on a produced statement. -/
def Stmt.isIfStatement : Stmt → Bool
  | .ifStatement _ _ _ => true
  | _ => false

/-- `j.SwitchStatement.check` on a produced statement. -/
def Stmt.isSwitchStatement : Stmt → Bool
  | .switchStatement _ _ => true
  | _ => false

/-- `j.ExpressionStatement.check` on a produced statement. -/
def Stmt.isExpressionStatement : Stmt → Bool
  | .expressionStatement _ => true
  | _ => false

/-- `j.ConditionalExpression.check`. -/
def isConditionalExpr : Expr → Bool
  | .conditional _ _ _ => true
  | _ => false

/-- `j.LogicalExpression.check`. -/
def isLogicalExpr : Expr → Bool
  | .logical _ _ _ => true
  | _ => false

/-- `j.Literal.check`. -/
def isLiteralExpr : Expr → Bool
  | .lit _ => true
  | _ => false

/-- `j.CallExpression.check`. -/
def isCallExpr : Expr → Bool
  | .call _ _ => true
  | _ => false

/-- `areNodesEqual(j, node1, node2)`: the source compares the canonical
rendered source text `j(node1).toSource() === j(node2).toSource()`. On this
abstract syntax the canonical rendering is injective, so the comparison is
modelled as structural (decidable) equality of the two nodes, which the
design notes of the transformation sanction as an equivalent, equally
strict oracle. -/
def areNodesEqual (node1 node2 : Expr) : Bool :=
  node1 == node2

/-- `makeDecisionTree(j, node)`: a `ConditionalExpression` descends into
both arms; `&&` guards its right operand on the truthy side; `||` guards
its right operand on the falsy side; `??` synthesizes the loose comparison
`left == null` as the guard; any other node becomes a leaf whose condition
is the node itself. -/
def makeDecisionTree (node : Expr) : DecisionTree :=
  match node with
  | .conditional test consequent alternate =>
    .node test (some (makeDecisionTree consequent)) (some (makeDecisionTree alternate))
  | .logical op left right =>
    match op with
    | .and => .node left (some (makeDecisionTree right)) none
    | .or => .node left none (some (makeDecisionTree right))
    | .nullish =>
      .node (.binary "==" left (.ident "null")) (some (makeDecisionTree right)) none
  | _ => .node node none none

/-- `isComparisonBase(j, node)`: literals and call expressions are rejected
as switch discriminants (moving a call would change how often it runs). -/
def isComparisonBase (node : Expr) : Bool :=
  match node with
  | .lit _ => false
  | .call _ _ => false
  | _ => true

/-- `extractComparisonBases(j, condition)`: an equality comparison offers
both operands (minus literals and calls); an `||` keeps the first left-side
candidate that also occurs (by `areNodesEqual`) among the right-side
candidates, provided both sides produced candidates; everything else
yields no candidate. -/
def extractComparisonBases (condition : Expr) : List Expr :=
  match condition with
  | .binary op left right =>
    if op == "==" || op == "===" then
      [left, right].filter (fun node => isComparisonBase node)
    else []
  | .logical .or left right =>
    let leftBases := extractComparisonBases left
    let rightBases := extractComparisonBases right
    if leftBases.length > 0 && rightBases.length > 0 then
      match leftBases.find? (fun node1 =>
          (rightBases.find? (fun node2 => areNodesEqual node1 node2)).isSome) with
      | some baseVariable => [baseVariable]
      | none => []
    else []
  | _ => []

/-- `extractComparisonValues(j, node, base)`: the values compared against
`base` in `node`, flattening an `||` chain left to right. -/
def extractComparisonValues (node : Expr) (base : Expr) : List Expr :=
  match node with
  | .binary op left right =>
    if op == "==" || op == "===" then
      if areNodesEqual left base then [right]
      else if areNodesEqual right base then [left]
      else []
    else []
  | .logical .or left right =>
    extractComparisonValues left base ++ extractComparisonValues right base
  | _ => []

/-- `countBaseVariableUsedInAllBranches(j, base, tree, count)`: a leaf
returns the accumulated count; an internal node whose condition does not
test `base` returns the sentinel `-1`; otherwise the count grows by one
into the children, taking the larger result when both branches exist.
The source gives `count` the default value `0`; callers here pass `0`
explicitly. -/
def countBaseVariableUsedInAllBranches (base : Expr) (tree : DecisionTree) (count : Int) : Int :=
  match tree with
  | .node condition trueBranch falseBranch =>
    if trueBranch.isNone && falseBranch.isNone then count
    else
    let comparisonBases := extractComparisonBases condition
    if !(comparisonBases.any (fun node => areNodesEqual node base)) then -1
    else
      match trueBranch, falseBranch with
      | some tb, some fb =>
        max (countBaseVariableUsedInAllBranches base tb (count + 1))
          (countBaseVariableUsedInAllBranches base fb (count + 1))
      | some tb, none => countBaseVariableUsedInAllBranches base tb (count + 1)
      | none, some fb => countBaseVariableUsedInAllBranches base fb (count + 1)
      | none, none => count

/-- `collectSwitchCase(j, tree, base)`: emits an empty (fallthrough) case
for every comparison value but the last, a case for the last value whose
body is `[ExpressionStatement(trueBranch.condition), Break]` when the
true branch exists (or an empty case otherwise), then continues into the
false branch: recursing when it is internal, emitting the `default` case
from its condition when it is a leaf, and nothing when it is absent. -/
def collectSwitchCase (tree : DecisionTree) (base : Expr) : List SwitchCase :=
  match tree with
  | .node condition trueBranch falseBranch =>
    if trueBranch.isNone && falseBranch.isNone then []
    else
    let comparisonValues := extractComparisonValues condition base
    let lastComparisonValue := comparisonValues.getLast?
    let otherComparisonValues := comparisonValues.dropLast
    let headCases : List SwitchCase :=
      otherComparisonValues.map (fun comparisonValue => (some comparisonValue, []))
    let lastCase : List SwitchCase :=
      match lastComparisonValue with
      | some value =>
        match trueBranch with
        | some tb =>
          [(some value, [Stmt.expressionStatement tb.condition, Stmt.breakStatement])]
        | none => [(some value, [])]
      | none => []
    let tailCases : List SwitchCase :=
      match falseBranch with
      | some fb =>
        if fb.trueBranch.isSome || fb.falseBranch.isSome then
          collectSwitchCase fb base
        else
          [(none, [Stmt.expressionStatement fb.condition, Stmt.breakStatement])]
      | none => []
    headCases ++ lastCase ++ tailCases

/-- `SWITCH_THRESHOLD = 3`. -/
def SWITCH_THRESHOLD : Int := 3

/-- `renderDecisionTreeWithSwitch(j, tree)`: finds the first comparison
base of the root condition whose deepest valid chain count reaches the
threshold and, when found, builds the switch statement from the collected
cases; otherwise yields nothing. -/
def renderDecisionTreeWithSwitch (tree : DecisionTree) : Option Stmt :=
  let cond := tree.condition
  let comparisonBases := extractComparisonBases cond
  if comparisonBases.length == 0 then none
  else
    match comparisonBases.find? (fun base =>
        decide (SWITCH_THRESHOLD ≤ countBaseVariableUsedInAllBranches base tree 0)) with
    | some comparisonBase =>
      some (.switchStatement comparisonBase (collectSwitchCase tree comparisonBase))
    | none => none

/-- `renderDecisionTree(j, tree)`: first attempts switch synthesis; on
failure a both-branch node renders its false side and splices it directly
as the alternate when that rendering is exactly one if statement,
otherwise wraps it in a block; a single-branch node renders a guarded if
(negating the condition for a false-only branch); a leaf renders its
condition as an expression statement. In the middle branch below,
`Stmt.blockStatement [s]` is the source `j.blockStatement(falseBranchStatements)`
with `falseBranchStatements` known to be the one-element list `[s]`. -/
def renderDecisionTree (tree : DecisionTree) : List Stmt :=
  match renderDecisionTreeWithSwitch tree, tree with
  | some switchStatement, _ => [switchStatement]
  | none, .node condition (some trueBranch) (some falseBranch) =>
    match renderDecisionTree falseBranch with
    | [s] =>
      if s.isIfStatement then
        [.ifStatement condition (.blockStatement (renderDecisionTree trueBranch)) (some s)]
      else
        [.ifStatement condition (.blockStatement (renderDecisionTree trueBranch))
          (some (.blockStatement [s]))]
    | falseBranchStatements =>
      [.ifStatement condition (.blockStatement (renderDecisionTree trueBranch))
        (some (.blockStatement falseBranchStatements))]
  | none, .node condition (some trueBranch) none =>
    [.ifStatement condition (.blockStatement (renderDecisionTree trueBranch)) none]
  | none, .node condition none (some falseBranch) =>
    [.ifStatement (.unary "!" condition) (.blockStatement (renderDecisionTree falseBranch)) none]
  | none, .node condition none none =>
    [.expressionStatement condition]

/-- `renderDecisionTreeWithEarlyReturn(j, tree)`: a both-branch node wraps
the true side in a guarded if and appends the false side unguarded at the
same level; single-branch nodes render a guarded if (negated for a
false-only branch); a leaf returns its condition. The source guards the
leaf with a truthiness test on `condition`, which always holds because the
condition of a decision tree node is always a node object. -/
def renderDecisionTreeWithEarlyReturn (tree : DecisionTree) : List Stmt :=
  match tree with
  | .node condition (some trueBranch) (some falseBranch) =>
    let trueBranchStatements := renderDecisionTreeWithEarlyReturn trueBranch
    let falseBranchStatements := renderDecisionTreeWithEarlyReturn falseBranch
    Stmt.ifStatement condition (.blockStatement trueBranchStatements) none
      :: falseBranchStatements
  | .node condition (some trueBranch) none =>
    [.ifStatement condition
      (.blockStatement (renderDecisionTreeWithEarlyReturn trueBranch)) none]
  | .node condition none (some falseBranch) =>
    [.ifStatement (.unary "!" condition)
      (.blockStatement (renderDecisionTreeWithEarlyReturn falseBranch)) none]
  | .node condition none none =>
    [.returnStatement condition]

mutual
/-- Whether a `ConditionalExpression` occurs in the expression (the
expression itself included), as tested by
`j(node).find(j.ConditionalExpression).size() > 0` together with the
direct `j.ConditionalExpression.check` that `transformAST` disjoins
with it. -/
def exprContainsConditional : Expr → Bool
  | .conditional _ _ _ => true
  | .logical _ left right => exprContainsConditional left || exprContainsConditional right
  | .binary _ left right => exprContainsConditional left || exprContainsConditional right
  | .unary _ argument => exprContainsConditional argument
  | .ident _ => false
  | .lit _ => false
  | .call callee args => exprContainsConditional callee || exprListContainsConditional args
/-- `exprContainsConditional` over an argument list. -/
def exprListContainsConditional : ExprList → Bool
  | .nil => false
  | .cons head tail => exprContainsConditional head || exprListContainsConditional tail
end

/-- The `ReturnStatement` filter of `transformAST`: the argument is a
`ConditionalExpression` and a further `ConditionalExpression` occurs in
its consequent or alternate (directly or nested). -/
def isReturnTriggerArgument : Expr → Bool
  | .conditional _ consequent alternate =>
    isConditionalExpr consequent || isConditionalExpr alternate
      || exprContainsConditional consequent || exprContainsConditional alternate
  | _ => false

/-- The trigger shapes of `transformAST`: an `ExpressionStatement` whose
expression is a `ConditionalExpression`, an `ExpressionStatement` whose
expression is a `LogicalExpression`, or a `ReturnStatement` whose argument
is a nested ternary. -/
def isTriggerStatement : Stmt → Bool
  | .expressionStatement (.conditional _ _ _) => true
  | .expressionStatement (.logical _ _ _) => true
  | .returnStatement argument => isReturnTriggerArgument argument
  | _ => false

mutual
/-- Whether the statement, or any statement nested inside it, is one of the
trigger shapes of `transformAST` (the traversal `root.find` descends into
blocks, if branches and switch case bodies). -/
def stmtContainsTrigger : Stmt → Bool
  | .expressionStatement expression => isTriggerStatement (.expressionStatement expression)
  | .ifStatement _ consequent alternate =>
    stmtContainsTrigger consequent
      || (match alternate with | some alt => stmtContainsTrigger alt | none => false)
  | .blockStatement body => stmtListContainsTrigger body
  | .returnStatement argument => isTriggerStatement (.returnStatement argument)
  | .switchStatement _ cases => caseListContainsTrigger cases
  | .breakStatement => false
/-- `stmtContainsTrigger` over a statement list. -/
def stmtListContainsTrigger : List Stmt → Bool
  | [] => false
  | s :: rest => stmtContainsTrigger s || stmtListContainsTrigger rest
/-- `stmtContainsTrigger` over the bodies of a switch case list. -/
def caseListContainsTrigger : List SwitchCase → Bool
  | [] => false
  | (_, body) :: rest => stmtListContainsTrigger body || caseListContainsTrigger rest
end

mutual
/-- Whether the statement, or any statement nested inside it, is a
`SwitchStatement`. -/
def stmtContainsSwitch : Stmt → Bool
  | .expressionStatement _ => false
  | .ifStatement _ consequent alternate =>
    stmtContainsSwitch consequent
      || (match alternate with | some alt => stmtContainsSwitch alt | none => false)
  | .blockStatement body => stmtListContainsSwitch body
  | .returnStatement _ => false
  | .switchStatement _ _ => true
  | .breakStatement => false
/-- `stmtContainsSwitch` over a statement list. -/
def stmtListContainsSwitch : List Stmt → Bool
  | [] => false
  | s :: rest => stmtContainsSwitch s || stmtListContainsSwitch rest
end

/-- Every leaf of the decision tree holds a condition that is neither a
`ConditionalExpression` nor a `LogicalExpression`. Trees produced by
`makeDecisionTree` always satisfy this, because those two node kinds are
always split into internal nodes. -/
def leafConditionsOk : DecisionTree → Bool
  | .node condition trueBranch falseBranch =>
    if trueBranch.isNone && falseBranch.isNone then
      !(isConditionalExpr condition) && !(isLogicalExpr condition)
    else
      (match trueBranch with | some t => leafConditionsOk t | none => true)
        && (match falseBranch with | some f => leafConditionsOk f | none => true)

/-- Modelled from the spec: the depth of the deepest valid chain through
the decision tree for a base: a leaf contributes depth 0; an internal node
is valid only if its own comparison bases include the base (otherwise the
whole descent fails, yielding `none`); a valid internal node adds 1 and
continues along the deeper of its children, ignoring a child whose descent
failed. The unreachable final inner case (both branches absent is already
matched as a leaf) is given the leaf value. -/
def deepestValidChain (base : Expr) : DecisionTree → Option Nat
  | .node condition trueBranch falseBranch =>
    if trueBranch.isNone && falseBranch.isNone then some 0
    else if (extractComparisonBases condition).any (fun node => areNodesEqual node base) then
      match trueBranch, falseBranch with
      | some tb, some fb =>
        match deepestValidChain base tb, deepestValidChain base fb with
        | some d1, some d2 => some (1 + max d1 d2)
        | some d1, none => some (1 + d1)
        | none, some d2 => some (1 + d2)
        | none, none => none
      | some tb, none => (deepestValidChain base tb).map (fun d => 1 + d)
      | none, some fb => (deepestValidChain base fb).map (fun d => 1 + d)
      | none, none => some 0
    else none

/-- The score `countBaseVariableUsedInAllBranches` reports for a chain
depth measured from a starting count: a failed descent is the sentinel
`-1`, a valid chain of depth `d` scores `c + d`. -/
def chainScore (c : Int) : Option Nat → Int
  | some d => c + (d : Int)
  | none => -1

/-- Shorthand: a call `f()` with no arguments. -/
def eCall (f : String) : Expr := .call (.ident f) .nil

/-- Shorthand: a loose equality comparison. -/
def eEq (l r : Expr) : Expr := .binary "==" l r

/-- Shorthand: a numeric literal. -/
def eN (n : Int) : Expr := .lit (.num n)

/-- Shorthand: a string literal. -/
def eS (s : String) : Expr := .lit (.str s)

/-- Shorthand: an identifier. -/
def eId (s : String) : Expr := .ident s

/-- The example `a == 1 ? f() : a == 2 ? g() : a == 3 ? h() : k()`. -/
def exC2Deep : Expr :=
  .conditional (eEq (eId "a") (eN 1)) (eCall "f")
    (.conditional (eEq (eId "a") (eN 2)) (eCall "g")
      (.conditional (eEq (eId "a") (eN 3)) (eCall "h") (eCall "k")))

/-- The example `a == 1 ? f() : a == 2 ? g() : h()`. -/
def exC2Shallow : Expr :=
  .conditional (eEq (eId "a") (eN 1)) (eCall "f")
    (.conditional (eEq (eId "a") (eN 2)) (eCall "g") (eCall "h"))

/-- The example `a == "x" || a == "y" ? f() : g()`. -/
def exC3Small : Expr :=
  .conditional (.logical .or (eEq (eId "a") (eS "x")) (eEq (eId "a") (eS "y")))
    (eCall "f") (eCall "g")

/-- The doc-comment example
`foo == "bar" ? bar() : foo == "baz" ? baz() :
 foo == "qux" || foo == "quux" ? qux() : quux()`. -/
def exC3Chain : Expr :=
  .conditional (eEq (eId "foo") (eS "bar")) (eCall "bar")
    (.conditional (eEq (eId "foo") (eS "baz")) (eCall "baz")
      (.conditional
        (.logical .or (eEq (eId "foo") (eS "qux")) (eEq (eId "foo") (eS "quux")))
        (eCall "qux") (eCall "quux")))

/-- The example `a ? f() : b ? g() : h()`. -/
def exC4 : Expr :=
  .conditional (eId "a") (eCall "f")
    (.conditional (eId "b") (eCall "g") (eCall "h"))

/-- The example
`a == 1 ? (b || c ? f() : g()) : a == 2 ? x() : a == 3 ? y() : z()`:
its chained false side qualifies base `a` for switch synthesis while its
internal true branch gets truncated into the case body. -/
def exC9 : Expr :=
  .conditional (eEq (eId "a") (eN 1))
    (.conditional (.logical .or (eId "b") (eId "c")) (eCall "f") (eCall "g"))
    (.conditional (eEq (eId "a") (eN 2)) (eCall "x")
      (.conditional (eEq (eId "a") (eN 3)) (eCall "y") (eCall "z")))

/-- Unfolding lemma for `countBaseVariableUsedInAllBranches` at a node. -/
theorem countBase_node (base condition : Expr) (tb fb : Option DecisionTree) (count : Int) :
    countBaseVariableUsedInAllBranches base (.node condition tb fb) count =
      (if tb.isNone && fb.isNone then count
       else if !((extractComparisonBases condition).any fun node => areNodesEqual node base) then
         -1
       else match tb, fb with
         | some t, some f =>
           max (countBaseVariableUsedInAllBranches base t (count + 1))
             (countBaseVariableUsedInAllBranches base f (count + 1))
         | some t, none => countBaseVariableUsedInAllBranches base t (count + 1)
         | none, some f => countBaseVariableUsedInAllBranches base f (count + 1)
         | none, none => count) := by
  cases tb <;> cases fb <;> rfl

/-- Unfolding lemma for `deepestValidChain` at a node. -/
theorem deepestValidChain_node (base condition : Expr) (tb fb : Option DecisionTree) :
    deepestValidChain base (.node condition tb fb) =
      (if tb.isNone && fb.isNone then some 0
       else if (extractComparisonBases condition).any (fun node => areNodesEqual node base) then
         match tb, fb with
         | some t, some f =>
           match deepestValidChain base t, deepestValidChain base f with
           | some d1, some d2 => some (1 + max d1 d2)
           | some d1, none => some (1 + d1)
           | none, some d2 => some (1 + d2)
           | none, none => none
         | some t, none => (deepestValidChain base t).map (fun d => 1 + d)
         | none, some f => (deepestValidChain base f).map (fun d => 1 + d)
         | none, none => some 0
       else none) := by
  cases tb <;> cases fb <;> rfl

/-- The threshold walk of the source computes exactly the spec's deepest
valid chain: from any nonnegative starting count it returns the sentinel
`-1` on a failed descent and `count + depth` on a valid one. -/
theorem countBase_eq_chainScore (base : Expr) (t : DecisionTree) (c : Int) (hc : 0 ≤ c) :
    countBaseVariableUsedInAllBranches base t c = chainScore c (deepestValidChain base t) := by
  revert hc
  induction t, c using countBaseVariableUsedInAllBranches.induct base with
  | case1 count condition trueBranch falseBranch hleaf =>
    intro hc
    simp only [Bool.and_eq_true, Option.isNone_iff_eq_none] at hleaf
    obtain ⟨h1, h2⟩ := hleaf
    subst h1
    subst h2
    simp [countBaseVariableUsedInAllBranches, deepestValidChain, chainScore]
  | case2 count condition trueBranch falseBranch hne cb hfail =>
    intro hc
    have hfail2 : (!(extractComparisonBases condition).any
        fun node => areNodesEqual node base) = true := hfail
    rw [countBase_node, deepestValidChain_node]
    rw [if_neg hne, if_pos hfail2, if_neg hne, if_neg (by simpa using hfail2)]
    simp [chainScore]
  | case3 count condition cb hok tb fb hne ih1 ih2 =>
    intro hc
    have hok2 : ((extractComparisonBases condition).any
        fun node => areNodesEqual node base) = true := by simpa using hok
    rw [countBase_node, deepestValidChain_node]
    rw [if_neg hne, if_neg (by simp [hok2]), if_neg hne, if_pos hok2]
    dsimp only
    rw [ih1 (by omega), ih2 (by omega)]
    cases deepestValidChain base tb <;> cases deepestValidChain base fb <;>
      simp [chainScore] <;> omega
  | case4 count condition cb hok tb hne ih =>
    intro hc
    have hok2 : ((extractComparisonBases condition).any
        fun node => areNodesEqual node base) = true := by simpa using hok
    rw [countBase_node, deepestValidChain_node]
    rw [if_neg hne, if_neg (by simp [hok2]), if_neg hne, if_pos hok2]
    dsimp only
    rw [ih (by omega)]
    cases deepestValidChain base tb
    all_goals simp [chainScore]
    all_goals omega
  | case5 count condition cb hok fb hne ih =>
    intro hc
    have hok2 : ((extractComparisonBases condition).any
        fun node => areNodesEqual node base) = true := by simpa using hok
    rw [countBase_node, deepestValidChain_node]
    rw [if_neg hne, if_neg (by simp [hok2]), if_neg hne, if_pos hok2]
    dsimp only
    rw [ih (by omega)]
    cases deepestValidChain base fb
    all_goals simp [chainScore]
    all_goals omega
  | case6 count condition cb hok hne =>
    intro hc
    simp at hne

/-- A successful switch synthesis always yields a switch statement. -/
theorem renderSwitch_some_shape {t : DecisionTree} {s : Stmt}
    (h : renderDecisionTreeWithSwitch t = some s) :
    ∃ d cs, s = Stmt.switchStatement d cs := by
  unfold renderDecisionTreeWithSwitch at h
  dsimp only at h
  split at h
  · exact absurd h (by simp)
  · split at h
    next comparisonBase heq =>
      injection h with h
      exact ⟨_, _, h.symm⟩
    next heq => exact absurd h (by simp)

/-- Shape of the guarded find over candidate bases used by
`renderDecisionTreeWithSwitch`. -/
theorem findBase_isSome_iff (l : List Expr) (p : Expr → Bool) (f : Expr → Stmt) :
    (if l.length == 0 then (none : Option Stmt)
     else
       match l.find? p with
       | some b => some (f b)
       | none => none).isSome = true ↔ ∃ x ∈ l, p x = true := by
  split
  next h =>
    simp only [beq_iff_eq, List.length_eq_zero] at h
    subst h
    simp
  next h =>
    cases hf : l.find? p with
    | some b =>
      simp only [Option.isSome_some, true_iff]
      exact ⟨b, List.mem_of_find?_eq_some hf, List.find?_some hf⟩
    | none =>
      simp only [Option.isSome_none, Bool.false_eq_true, false_iff]
      rintro ⟨x, hx, hpx⟩
      exact absurd hpx (by simpa using List.find?_eq_none.mp hf x hx)

/-- The synthesizer fires exactly when some candidate base of the root
condition admits a valid chain of depth at least 3. -/
theorem renderSwitch_isSome_iff (t : DecisionTree) :
    (renderDecisionTreeWithSwitch t).isSome = true ↔
      ∃ base ∈ extractComparisonBases t.condition,
        ∃ d, deepestValidChain base t = some d ∧ 3 ≤ d := by
  have hp : ∀ base : Expr,
      decide (SWITCH_THRESHOLD ≤ countBaseVariableUsedInAllBranches base t 0) = true ↔
        ∃ d, deepestValidChain base t = some d ∧ 3 ≤ d := by
    intro base
    rw [decide_eq_true_iff, countBase_eq_chainScore base t 0 (by omega)]
    cases h : deepestValidChain base t with
    | none => simp [chainScore, SWITCH_THRESHOLD]
    | some d =>
      simp only [chainScore, SWITCH_THRESHOLD, Option.some.injEq]
      constructor
      · intro hd
        exact ⟨d, rfl, by omega⟩
      · rintro ⟨d2, rfl, hd⟩
        omega
  have h := findBase_isSome_iff (extractComparisonBases t.condition)
    (fun base => decide (SWITCH_THRESHOLD ≤ countBaseVariableUsedInAllBranches base t 0))
    (fun base => Stmt.switchStatement base (collectSwitchCase t base))
  constructor
  · intro hs
    obtain ⟨x, hx, hpx⟩ := h.mp hs
    exact ⟨x, hx, (hp x).mp hpx⟩
  · rintro ⟨x, hx, hd⟩
    exact h.mpr ⟨x, hx, (hp x).mpr hd⟩

/-- The expression-statement renderer always produces exactly one
statement: a switch, an if, or an expression statement. -/
theorem render_singleton (t : DecisionTree) :
    ∃ s, renderDecisionTree t = [s]
      ∧ (s.isSwitchStatement || s.isIfStatement || s.isExpressionStatement) = true := by
  rw [renderDecisionTree.eq_def]
  split
  next sw heq =>
    obtain ⟨d, cs, rfl⟩ := renderSwitch_some_shape heq
    exact ⟨_, rfl, rfl⟩
  next heq =>
    split
    · split
      · exact ⟨_, rfl, rfl⟩
      · exact ⟨_, rfl, rfl⟩
    · exact ⟨_, rfl, rfl⟩
  next heq => exact ⟨_, rfl, rfl⟩
  next heq => exact ⟨_, rfl, rfl⟩
  next heq => exact ⟨_, rfl, rfl⟩

/-- Unfolding lemma for `leafConditionsOk` at a node. -/
theorem leafConditionsOk_node (c : Expr) (tb fb : Option DecisionTree) :
    leafConditionsOk (.node c tb fb) =
      (if tb.isNone && fb.isNone then !(isConditionalExpr c) && !(isLogicalExpr c)
       else (match tb with | some t => leafConditionsOk t | none => true)
         && (match fb with | some f => leafConditionsOk f | none => true)) := by
  cases tb <;> cases fb <;> rfl

/-- Rendering equation: both branches, false side rendered to a single if
statement, spliced directly as the alternate. -/
theorem renderDecisionTree_both_if {condition : Expr} {tb fb : DecisionTree} {s : Stmt}
    (hsw : renderDecisionTreeWithSwitch (.node condition (some tb) (some fb)) = none)
    (hfb : renderDecisionTree fb = [s]) (hif : s.isIfStatement = true) :
    renderDecisionTree (.node condition (some tb) (some fb)) =
      [.ifStatement condition (.blockStatement (renderDecisionTree tb)) (some s)] := by
  rw [renderDecisionTree.eq_def, hsw]
  dsimp only
  rw [hfb]
  dsimp only
  rw [if_pos hif]

/-- Rendering equation: both branches, false side rendered to a single
statement that is not an if, wrapped in a block as the alternate. -/
theorem renderDecisionTree_both_else {condition : Expr} {tb fb : DecisionTree} {s : Stmt}
    (hsw : renderDecisionTreeWithSwitch (.node condition (some tb) (some fb)) = none)
    (hfb : renderDecisionTree fb = [s]) (hif : s.isIfStatement = false) :
    renderDecisionTree (.node condition (some tb) (some fb)) =
      [.ifStatement condition (.blockStatement (renderDecisionTree tb))
        (some (.blockStatement [s]))] := by
  rw [renderDecisionTree.eq_def, hsw]
  dsimp only
  rw [hfb]
  dsimp only
  rw [if_neg (by simp [hif])]

/-- Rendering equation: only the true branch present. -/
theorem renderDecisionTree_true {condition : Expr} {tb : DecisionTree}
    (hsw : renderDecisionTreeWithSwitch (.node condition (some tb) none) = none) :
    renderDecisionTree (.node condition (some tb) none) =
      [.ifStatement condition (.blockStatement (renderDecisionTree tb)) none] := by
  rw [renderDecisionTree.eq_def, hsw]

/-- Rendering equation: only the false branch present. -/
theorem renderDecisionTree_false {condition : Expr} {fb : DecisionTree}
    (hsw : renderDecisionTreeWithSwitch (.node condition none (some fb)) = none) :
    renderDecisionTree (.node condition none (some fb)) =
      [.ifStatement (.unary "!" condition) (.blockStatement (renderDecisionTree fb)) none] := by
  rw [renderDecisionTree.eq_def, hsw]

/-- Rendering equation: leaf. -/
theorem renderDecisionTree_leaf {condition : Expr}
    (hsw : renderDecisionTreeWithSwitch (.node condition none none) = none) :
    renderDecisionTree (.node condition none none) = [.expressionStatement condition] := by
  rw [renderDecisionTree.eq_def, hsw]

/-- An expression statement over a condition that is neither conditional
nor logical is not a trigger shape. -/
theorem isTriggerStatement_expr {c : Expr}
    (h1 : isConditionalExpr c = false) (h2 : isLogicalExpr c = false) :
    isTriggerStatement (.expressionStatement c) = false := by
  cases c <;> simp_all [isConditionalExpr, isLogicalExpr, isTriggerStatement]

/-- A return statement over a non-conditional argument is not a trigger
shape. -/
theorem isTriggerStatement_return {c : Expr} (h1 : isConditionalExpr c = false) :
    isTriggerStatement (.returnStatement c) = false := by
  cases c <;> simp_all [isConditionalExpr, isTriggerStatement, isReturnTriggerArgument]

/-- Every tree built by `makeDecisionTree` has leaves whose conditions are
neither conditional nor logical expressions. -/
theorem makeDecisionTree_leafOk (e : Expr) : leafConditionsOk (makeDecisionTree e) = true := by
  induction e using makeDecisionTree.induct with
  | case1 test consequent alternate ih1 ih2 =>
    rw [show makeDecisionTree (.conditional test consequent alternate) =
      .node test (some (makeDecisionTree consequent)) (some (makeDecisionTree alternate)) from rfl]
    rw [leafConditionsOk_node]
    simp [ih1, ih2]
  | case2 left right ih =>
    rw [show makeDecisionTree (.logical .and left right) =
      .node left (some (makeDecisionTree right)) none from rfl]
    rw [leafConditionsOk_node]
    simp [ih]
  | case3 left right ih =>
    rw [show makeDecisionTree (.logical .or left right) =
      .node left none (some (makeDecisionTree right)) from rfl]
    rw [leafConditionsOk_node]
    simp [ih]
  | case4 left right ih =>
    rw [show makeDecisionTree (.logical .nullish left right) =
      .node (.binary "==" left (.ident "null")) (some (makeDecisionTree right)) none from rfl]
    rw [leafConditionsOk_node]
    simp [ih]
  | case5 t hcond hlog =>
    cases t with
    | conditional a b c => exact absurd rfl (hcond a b c)
    | logical op l r => exact absurd rfl (hlog op l r)
    | binary op l r => rfl
    | unary op a => rfl
    | ident n => rfl
    | lit v => rfl
    | call c args => rfl

/-- The early-return renderer never emits a trigger shape when the tree
has well-formed leaves. -/
theorem earlyReturn_noTrigger (t : DecisionTree) :
    leafConditionsOk t = true →
    stmtListContainsTrigger (renderDecisionTreeWithEarlyReturn t) = false := by
  induction t using renderDecisionTreeWithEarlyReturn.induct with
  | case1 condition tb fb ih1 ih2 =>
    intro hleaf
    rw [leafConditionsOk_node] at hleaf
    simp at hleaf
    simp [renderDecisionTreeWithEarlyReturn, stmtListContainsTrigger, stmtContainsTrigger,
      isTriggerStatement, ih1 hleaf.1, ih2 hleaf.2]
  | case2 condition tb ih =>
    intro hleaf
    rw [leafConditionsOk_node] at hleaf
    simp at hleaf
    simp [renderDecisionTreeWithEarlyReturn, stmtListContainsTrigger, stmtContainsTrigger,
      isTriggerStatement, ih hleaf]
  | case3 condition fb ih =>
    intro hleaf
    rw [leafConditionsOk_node] at hleaf
    simp at hleaf
    simp [renderDecisionTreeWithEarlyReturn, stmtListContainsTrigger, stmtContainsTrigger,
      isTriggerStatement, ih hleaf]
  | case4 condition =>
    intro hleaf
    rw [leafConditionsOk_node] at hleaf
    simp at hleaf
    simp [renderDecisionTreeWithEarlyReturn, stmtListContainsTrigger, stmtContainsTrigger,
      isTriggerStatement_return hleaf.1]

/-- When the expression-statement renderer produced no switch statement
anywhere in its output, that output contains no trigger shape (given
well-formed leaves). -/
theorem render_noSwitch_noTrigger (t : DecisionTree) :
    leafConditionsOk t = true →
    stmtListContainsSwitch (renderDecisionTree t) = false →
    stmtListContainsTrigger (renderDecisionTree t) = false := by
  induction t using renderDecisionTree.induct with
  | case1 t sw hsw =>
    intro hleaf hns
    obtain ⟨d, cs, rfl⟩ := renderSwitch_some_shape hsw
    have hr : renderDecisionTree t = [.switchStatement d cs] := by
      rw [renderDecisionTree.eq_def, hsw]
    rw [hr] at hns
    simp [stmtListContainsSwitch, stmtContainsSwitch] at hns
  | case2 condition tb fb s hfb hif hsw ih_fb ih_tb =>
    intro hleaf hns
    rw [leafConditionsOk_node] at hleaf
    simp at hleaf
    rw [renderDecisionTree_both_if hsw hfb hif] at hns ⊢
    simp only [stmtListContainsSwitch, stmtContainsSwitch, Bool.or_false,
      Bool.or_eq_false_iff] at hns
    simp only [stmtListContainsTrigger, stmtContainsTrigger, isTriggerStatement,
      Bool.or_false, Bool.or_eq_false_iff]
    refine ⟨ih_tb hleaf.1 hns.1, ?_⟩
    have h2 := ih_fb hleaf.2 (by
      rw [hfb]
      simpa [stmtListContainsSwitch] using hns.2)
    rw [hfb] at h2
    simpa [stmtListContainsTrigger] using h2
  | case3 condition tb fb s hfb hif hsw ih_fb ih_tb =>
    intro hleaf hns
    rw [leafConditionsOk_node] at hleaf
    simp at hleaf
    rw [renderDecisionTree_both_else hsw hfb (by simpa using hif)] at hns ⊢
    simp only [stmtListContainsSwitch, stmtContainsSwitch, Bool.or_false,
      Bool.or_eq_false_iff] at hns
    simp only [stmtListContainsTrigger, stmtContainsTrigger, isTriggerStatement,
      Bool.or_false, Bool.or_eq_false_iff]
    refine ⟨ih_tb hleaf.1 hns.1, ?_⟩
    have h2 := ih_fb hleaf.2 (by
      rw [hfb]
      simpa [stmtListContainsSwitch, stmtContainsSwitch] using hns.2)
    rw [hfb] at h2
    simpa [stmtListContainsTrigger] using h2
  | case4 condition tb fb hsw himp ih_fb ih_tb =>
    intro hleaf hns
    obtain ⟨s, hs, _⟩ := render_singleton fb
    exact absurd hs (himp s)
  | case5 condition tb hsw ih =>
    intro hleaf hns
    rw [leafConditionsOk_node] at hleaf
    simp at hleaf
    rw [renderDecisionTree_true hsw] at hns ⊢
    simp only [stmtListContainsSwitch, stmtContainsSwitch, Bool.or_false] at hns
    simp only [stmtListContainsTrigger, stmtContainsTrigger, isTriggerStatement,
      Bool.or_false]
    exact ih hleaf hns
  | case6 condition fb hsw ih =>
    intro hleaf hns
    rw [leafConditionsOk_node] at hleaf
    simp at hleaf
    rw [renderDecisionTree_false hsw] at hns ⊢
    simp only [stmtListContainsSwitch, stmtContainsSwitch, Bool.or_false] at hns
    simp only [stmtListContainsTrigger, stmtContainsTrigger, isTriggerStatement,
      Bool.or_false]
    exact ih hleaf hns
  | case7 condition hsw =>
    intro hleaf hns
    rw [leafConditionsOk_node] at hleaf
    simp at hleaf
    rw [renderDecisionTree_leaf hsw]
    simp [stmtListContainsTrigger, stmtContainsTrigger,
      isTriggerStatement_expr hleaf.1 hleaf.2]

/-- Unfolding lemma for `collectSwitchCase` at a node. -/
theorem collectSwitchCase_node (condition base : Expr) (tb fb : Option DecisionTree) :
    collectSwitchCase (.node condition tb fb) base =
      (if tb.isNone && fb.isNone then []
       else
         ((extractComparisonValues condition base).dropLast.map
           (fun comparisonValue => ((some comparisonValue, []) : SwitchCase)))
         ++ (match (extractComparisonValues condition base).getLast? with
             | some value =>
               match tb with
               | some t =>
                 [((some value,
                   [Stmt.expressionStatement t.condition, Stmt.breakStatement]) : SwitchCase)]
               | none => [((some value, []) : SwitchCase)]
             | none => [])
         ++ (match fb with
             | some f =>
               if f.trueBranch.isSome || f.falseBranch.isSome then collectSwitchCase f base
               else
                 [((none,
                   [Stmt.expressionStatement f.condition, Stmt.breakStatement]) : SwitchCase)]
             | none => [])) := by
  cases tb <;> cases fb <;> rfl

/-- C1: `makeDecisionTree` is total over every expression (it is a plain
function here) and follows exactly the five stated rules: a conditional
splits into both arms; logical AND guards its right operand on the truthy
side; logical OR guards its right operand on the falsy side; nullish
coalescing synthesizes the loose comparison `left == null` as the guard
with the right operand on the truthy side; every other expression becomes
a leaf holding the expression itself. -/
theorem claim1_makeDecisionTree_rules :
    (∀ test consequent alternate : Expr,
      makeDecisionTree (.conditional test consequent alternate) =
        .node test (some (makeDecisionTree consequent)) (some (makeDecisionTree alternate)))
    ∧ (∀ left right : Expr, makeDecisionTree (.logical .and left right) =
        .node left (some (makeDecisionTree right)) none)
    ∧ (∀ left right : Expr, makeDecisionTree (.logical .or left right) =
        .node left none (some (makeDecisionTree right)))
    ∧ (∀ left right : Expr, makeDecisionTree (.logical .nullish left right) =
        .node (.binary "==" left (.ident "null")) (some (makeDecisionTree right)) none)
    ∧ (∀ e : Expr, isConditionalExpr e = false → isLogicalExpr e = false →
        makeDecisionTree e = .node e none none) := by
  refine ⟨fun _ _ _ => rfl, fun _ _ => rfl, fun _ _ => rfl, fun _ _ => rfl, ?_⟩
  intro e h1 h2
  cases e with
  | conditional a b c => simp [isConditionalExpr] at h1
  | logical op l r => simp [isLogicalExpr] at h2
  | binary op l r => rfl
  | unary op a => rfl
  | ident n => rfl
  | lit v => rfl
  | call c args => rfl

/-- Witness for C1: the leaf rule applied at the identifier `x`. -/
theorem claim1_makeDecisionTree_rules_witness :
    makeDecisionTree (.ident "x") = .node (.ident "x") none none :=
  claim1_makeDecisionTree_rules.2.2.2.2 (.ident "x") rfl rfl

/-- C2: a comparison base qualifies for switch synthesis exactly when the
deepest valid chain through the decision tree reaches at least 3 internal
nodes all testing it (the source walk computes the sentinel `-1` on a
failed descent and the chain depth otherwise, taking the deeper child at a
two-branch node); `a == 1 ? f() : a == 2 ? g() : a == 3 ? h() : k()`
synthesizes `switch (a)` with cases 1, 2, 3 and default, while the
depth-2 chain `a == 1 ? f() : a == 2 ? g() : h()` renders as nested
if / else if. -/
theorem claim2_switch_threshold :
    (∀ (base : Expr) (t : DecisionTree) (c : Int), 0 ≤ c →
      countBaseVariableUsedInAllBranches base t c = chainScore c (deepestValidChain base t))
    ∧ (∀ t : DecisionTree, (renderDecisionTreeWithSwitch t).isSome = true ↔
        ∃ base ∈ extractComparisonBases t.condition,
          ∃ d, deepestValidChain base t = some d ∧ 3 ≤ d)
    ∧ renderDecisionTree (makeDecisionTree exC2Deep) =
      [.switchStatement (eId "a")
        [(some (eN 1), [.expressionStatement (eCall "f"), .breakStatement]),
         (some (eN 2), [.expressionStatement (eCall "g"), .breakStatement]),
         (some (eN 3), [.expressionStatement (eCall "h"), .breakStatement]),
         (none, [.expressionStatement (eCall "k"), .breakStatement])]]
    ∧ renderDecisionTree (makeDecisionTree exC2Shallow) =
      [.ifStatement (eEq (eId "a") (eN 1))
        (.blockStatement [.expressionStatement (eCall "f")])
        (some (.ifStatement (eEq (eId "a") (eN 2))
          (.blockStatement [.expressionStatement (eCall "g")])
          (some (.blockStatement [.expressionStatement (eCall "h")]))))] :=
  ⟨countBase_eq_chainScore, renderSwitch_isSome_iff, rfl, rfl⟩

/-- Witness for C2: the walk-versus-chain equation evaluated on the deep
example with base `a` and starting count 0. -/
theorem claim2_switch_threshold_witness :
    countBaseVariableUsedInAllBranches (eId "a") (makeDecisionTree exC2Deep) 0 =
      chainScore 0 (deepestValidChain (eId "a") (makeDecisionTree exC2Deep)) :=
  claim2_switch_threshold.1 (eId "a") (makeDecisionTree exC2Deep) 0 (by decide)

/-- C3 (counterexample): the standalone `a == "x" || a == "y" ? f() : g()`
does not synthesize a switch, contrary to the claim: the synthesizer
returns nothing (its chain depth 1 is below the threshold 3) and the
expression renders as an if-else statement. -/
theorem claim3_fallthrough_counterexample :
    renderDecisionTreeWithSwitch (makeDecisionTree exC3Small) = none
    ∧ renderDecisionTree (makeDecisionTree exC3Small) =
      [.ifStatement (.logical .or (eEq (eId "a") (eS "x")) (eEq (eId "a") (eS "y")))
        (.blockStatement [.expressionStatement (eCall "f")])
        (some (.blockStatement [.expressionStatement (eCall "g")]))] :=
  ⟨rfl, rfl⟩

/-- C3 (amended): the fallthrough grouping of OR-joined comparison values
appears when the grouped equality sits in a chain meeting the threshold:
the documented example synthesizes a switch on `foo` whose case list
contains the empty fallthrough case `"qux"` followed by case `"quux"`
with the shared body calling `qux()` and breaking, then a default case
running `quux()`; the standalone depth-1 expression of the original claim
instead renders as an if-else (see the counterexample). -/
theorem claim3_fallthrough_amended :
    renderDecisionTree (makeDecisionTree exC3Chain) =
      [.switchStatement (eId "foo")
        [(some (eS "bar"), [.expressionStatement (eCall "bar"), .breakStatement]),
         (some (eS "baz"), [.expressionStatement (eCall "baz"), .breakStatement]),
         (some (eS "qux"), []),
         (some (eS "quux"), [.expressionStatement (eCall "qux"), .breakStatement]),
         (none, [.expressionStatement (eCall "quux"), .breakStatement])]] := rfl

/-- C4: in the expression-statement renderer, when switch synthesis has
declined and both branches exist, the rendering of the false side decides
the shape: if it is exactly one if statement it is spliced directly as the
alternate (yielding else-if), otherwise it is wrapped in a block used as
the else; concretely `a ? f() : b ? g() : h()` yields a single if whose
alternate is itself an if, not a block. -/
theorem claim4_else_if_flattening :
    (∀ (condition : Expr) (tb fb : DecisionTree) (s : Stmt),
      renderDecisionTreeWithSwitch (.node condition (some tb) (some fb)) = none →
      renderDecisionTree fb = [s] → s.isIfStatement = true →
      renderDecisionTree (.node condition (some tb) (some fb)) =
        [.ifStatement condition (.blockStatement (renderDecisionTree tb)) (some s)])
    ∧ (∀ (condition : Expr) (tb fb : DecisionTree) (s : Stmt),
      renderDecisionTreeWithSwitch (.node condition (some tb) (some fb)) = none →
      renderDecisionTree fb = [s] → s.isIfStatement = false →
      renderDecisionTree (.node condition (some tb) (some fb)) =
        [.ifStatement condition (.blockStatement (renderDecisionTree tb))
          (some (.blockStatement [s]))])
    ∧ renderDecisionTree (makeDecisionTree exC4) =
      [.ifStatement (eId "a") (.blockStatement [.expressionStatement (eCall "f")])
        (some (.ifStatement (eId "b") (.blockStatement [.expressionStatement (eCall "g")])
          (some (.blockStatement [.expressionStatement (eCall "h")]))))] :=
  ⟨fun _ _ _ _ hsw hfb hif => renderDecisionTree_both_if hsw hfb hif,
   fun _ _ _ _ hsw hfb hif => renderDecisionTree_both_else hsw hfb hif, rfl⟩

/-- Witness for C4: the splice rule applied to the concrete tree of
`a ? f() : b ? g() : h()`. -/
theorem claim4_else_if_flattening_witness :
    renderDecisionTree (.node (eId "a")
        (some (.node (eCall "f") none none))
        (some (.node (eId "b") (some (.node (eCall "g") none none))
          (some (.node (eCall "h") none none))))) =
      [.ifStatement (eId "a")
        (.blockStatement (renderDecisionTree (.node (eCall "f") none none)))
        (some (.ifStatement (eId "b")
          (.blockStatement [.expressionStatement (eCall "g")])
          (some (.blockStatement [.expressionStatement (eCall "h")]))))] :=
  claim4_else_if_flattening.1 (eId "a") _ _ _ rfl rfl rfl

/-- C5: in the return-context renderer a two-branch node renders as the
guarded early-return of the true branch followed by the false branch's
statements appended unguarded at the same nesting level; concretely
`return a ? f() : b ? g() : h()` yields exactly two if statements followed
by a bare `return h()`, with no else branches. -/
theorem claim5_early_return_flattening :
    (∀ (condition : Expr) (tb fb : DecisionTree),
      renderDecisionTreeWithEarlyReturn (.node condition (some tb) (some fb)) =
        Stmt.ifStatement condition
          (.blockStatement (renderDecisionTreeWithEarlyReturn tb)) none
          :: renderDecisionTreeWithEarlyReturn fb)
    ∧ renderDecisionTreeWithEarlyReturn (makeDecisionTree exC4) =
      [.ifStatement (eId "a") (.blockStatement [.returnStatement (eCall "f")]) none,
       .ifStatement (eId "b") (.blockStatement [.returnStatement (eCall "g")]) none,
       .returnStatement (eCall "h")] :=
  ⟨fun _ _ _ => rfl, rfl⟩

/-- C6: comparison-base extraction returns, for a loose or strict equality,
the two operands minus any literal or call operand; for an OR both of
whose sides yield candidates, only bases present on both sides by
structural equality (and one side without candidates, or any other
expression shape, yields the empty list). -/
theorem claim6_extract_bases :
    (∀ e : Expr, isComparisonBase e = (!(isLiteralExpr e) && !(isCallExpr e)))
    ∧ (∀ (op : String) (left right : Expr), op = "==" ∨ op = "===" →
        extractComparisonBases (.binary op left right) =
          [left, right].filter (fun n => isComparisonBase n))
    ∧ (∀ left right base : Expr,
        base ∈ extractComparisonBases (.logical .or left right) →
        base ∈ extractComparisonBases left
          ∧ ∃ b2 ∈ extractComparisonBases right, areNodesEqual base b2 = true)
    ∧ (∀ left right : Expr,
        extractComparisonBases left = [] ∨ extractComparisonBases right = [] →
        extractComparisonBases (.logical .or left right) = [])
    ∧ (∀ e : Expr,
        (∀ op l r, e = .binary op l r → op ≠ "==" ∧ op ≠ "===") →
        (∀ l r, e ≠ .logical .or l r) →
        extractComparisonBases e = []) := by
  refine ⟨?_, ?_, ?_, ?_, ?_⟩
  · intro e
    cases e <;> rfl
  · intro op left right h
    rcases h with rfl | rfl <;> rfl
  · intro left right base h
    simp only [extractComparisonBases] at h
    split at h
    next hlen =>
      split at h
      next b hf =>
        simp only [List.mem_singleton] at h
        subst h
        have hp := List.find?_some hf
        simp only [Option.isSome_iff_exists] at hp
        obtain ⟨b2, hb2⟩ := hp
        exact ⟨List.mem_of_find?_eq_some hf, b2,
          List.mem_of_find?_eq_some hb2, List.find?_some hb2⟩
      next hf => simp at h
    next hlen => simp at h
  · intro left right h
    simp only [extractComparisonBases]
    rcases h with h | h <;> simp [h]
  · intro e h1 h2
    cases e with
    | conditional a b c => rfl
    | logical op l r =>
      cases op with
      | and => rfl
      | or => exact absurd rfl (h2 l r)
      | nullish => rfl
    | binary op l r =>
      obtain ⟨ha, hb⟩ := h1 op l r rfl
      simp [extractComparisonBases, ha, hb]
    | unary op a => rfl
    | ident n => rfl
    | lit v => rfl
    | call c args => rfl

/-- Witness for C6: the equality rule at `a == 1` keeps only the
non-literal operand. -/
theorem claim6_extract_bases_witness :
    extractComparisonBases (.binary "==" (eId "a") (eN 1)) = [eId "a"] :=
  (claim6_extract_bases.2.1 "==" (eId "a") (eN 1) (Or.inl rfl)).trans rfl

/-- C7: `a ?? f()` renders as `if (a == null) { f() }`: the nullish guard
is normalized to a loose equality-to-null test and emitted as a plain if
statement with no else branch. -/
theorem claim7_nullish_normalization :
    renderDecisionTree (makeDecisionTree (.logical .nullish (eId "a") (eCall "f"))) =
      [.ifStatement (.binary "==" (eId "a") (.ident "null"))
        (.blockStatement [.expressionStatement (eCall "f")]) none] := rfl

/-- C8: during switch case collection, when the last comparison value is
emitted and the true branch is present, the case body is always exactly
`[ExpressionStatement(trueBranch.condition), Break]` — the condition is
read directly even for an internal true branch, silently discarding its
nested structure, and no error is raised (the function is total). -/
theorem claim8_case_body_truncation
    (condition base : Expr) (tb : DecisionTree) (fb : Option DecisionTree) (v : Expr)
    (h : (extractComparisonValues condition base).getLast? = some v) :
    collectSwitchCase (.node condition (some tb) fb) base =
      (extractComparisonValues condition base).dropLast.map
        (fun value => ((some value, []) : SwitchCase))
      ++ [(some v, [Stmt.expressionStatement tb.condition, Stmt.breakStatement])]
      ++ (match fb with
          | some fbt =>
            if fbt.trueBranch.isSome || fbt.falseBranch.isSome then
              collectSwitchCase fbt base
            else
              [((none,
                [Stmt.expressionStatement fbt.condition, Stmt.breakStatement]) : SwitchCase)]
          | none => []) := by
  rw [collectSwitchCase_node, h]
  simp [List.append_assoc]

/-- Witness for C8: a concrete internal true branch
(`b ? f() : g()` guarded by `a == 1`, with leaf `h()` as the false side):
only its guard `b` survives into the case body. -/
theorem claim8_case_body_truncation_witness :
    collectSwitchCase
      (.node (eEq (eId "a") (eN 1))
        (some (.node (eId "b") (some (.node (eCall "f") none none))
          (some (.node (eCall "g") none none))))
        (some (.node (eCall "h") none none)))
      (eId "a") =
      [(some (eN 1), [.expressionStatement (eId "b"), .breakStatement]),
       (none, [.expressionStatement (eCall "h"), .breakStatement])] :=
  (claim8_case_body_truncation (eEq (eId "a") (eN 1)) (eId "a")
    (.node (eId "b") (some (.node (eCall "f") none none))
      (some (.node (eCall "g") none none)))
    (some (.node (eCall "h") none none)) (eN 1) rfl).trans rfl

/-- C9 (counterexample): rendering
`a == 1 ? (b || c ? f() : g()) : a == 2 ? x() : a == 3 ? y() : z()`
produces output containing a trigger shape (the synthesized switch case
for value 1 holds the expression statement `b || c`, a logical
expression), and the transformation rewrites such an expression statement
into an if statement, so re-running it on this output is not a no-op. -/
theorem claim9_idempotence_counterexample :
    stmtListContainsTrigger (renderDecisionTree (makeDecisionTree exC9)) = true
    ∧ renderDecisionTree (makeDecisionTree (.logical .or (eId "b") (eId "c"))) =
      [.ifStatement (.unary "!" (eId "b"))
        (.blockStatement [.expressionStatement (eId "c")]) none] :=
  ⟨rfl, rfl⟩

/-- C9 (amended): re-running the transformation is a no-op on every
early-return rendering and on every expression-statement rendering that
contains no switch statement — those outputs contain no trigger shape;
only a synthesized switch case body can retain a trigger shape, when case
emission truncates an internal true branch (see the counterexample). -/
theorem claim9_idempotence_amended (e : Expr) :
    stmtListContainsTrigger (renderDecisionTreeWithEarlyReturn (makeDecisionTree e)) = false
    ∧ (stmtListContainsSwitch (renderDecisionTree (makeDecisionTree e)) = false →
       stmtListContainsTrigger (renderDecisionTree (makeDecisionTree e)) = false) :=
  ⟨earlyReturn_noTrigger _ (makeDecisionTree_leafOk e),
   render_noSwitch_noTrigger _ (makeDecisionTree_leafOk e)⟩

/-- Witness for C9 (amended): the if-else rendering of
`a ? f() : b ? g() : h()` contains no switch and hence no trigger. -/
theorem claim9_idempotence_amended_witness :
    stmtListContainsTrigger (renderDecisionTree (makeDecisionTree exC4)) = false :=
  (claim9_idempotence_amended exC4).2 rfl

/-- C10: the expression-statement renderer returns exactly one statement
for every decision tree — a single switch, if, or expression statement —
never an empty list or several statements, unlike the return-context
renderer, which returns three statements for `a ? f() : b ? g() : h()`. -/
theorem claim10_singleton_output :
    (∀ t : DecisionTree, ∃ s, renderDecisionTree t = [s]
      ∧ (s.isSwitchStatement || s.isIfStatement || s.isExpressionStatement) = true)
    ∧ (renderDecisionTreeWithEarlyReturn (makeDecisionTree exC4)).length = 3 :=
  ⟨render_singleton, rfl⟩

end Wakaru
